import Mathlib

/-!
Verification of the multi-platform deployer core.

This development gives a shallow embedding of the deployment orchestration
sequencer (`main.py`, class `Deployer`) and the snapshot-based rollback store
(`scripts/rollback.py`, class `RollbackManager`), and proves the spec's claims
about them.

Modelling conventions:
* External capabilities (system checker, framework checkers, config validator,
  platform deployers, migrator) are out of scope per the spec; they enter as
  boolean-valued fields of an environment record (`DeployEnv`, `CreateEnv`).
* The filesystem visible to the rollback store is a `FS` record: the optional
  `.deployment` history directory (sidecar JSON files with modification times,
  plus the `artifacts` zip directory) and the live project tree as a
  path-to-content association list.  A `clock` field supplies strictly
  increasing modification times.
* Fallible filesystem steps (zip archiving, the sidecar JSON dump) are driven
  by success flags in `CreateEnv`; Python exceptions caught by the source map
  to the `false` branch of those flags, so every modelled operation is a total
  function (nothing propagates to the caller, matching the code's catch-all
  handlers).
* Side effects the claims observe (checkpoint creation, platform actions,
  restore/callback ordering) are recorded as explicit event traces.
-/

namespace MPD

/-- Result of a single readiness check (`checkers/base.py`, `CheckResult`). -/
structure CheckResult where
  name : String
  passed : Bool
  message : String
  category : String
  severity : String
  deriving DecidableEq

/-- A Python runtime value, as far as JSON persistence is concerned.
Floats never get computed on, only carried; we represent one by its raw bit
pattern.  `pother` is any object outside the JSON-safe universe, carried with
the text its `str()` would produce. -/
inductive PyVal where
  | pstr (s : String)
  | pint (n : Int)
  | pfloat (bits : Nat)
  | pbool (b : Bool)
  | pnone
  | pdict (entries : List (PyVal × PyVal))
  | plist (items : List PyVal)
  | ptuple (items : List PyVal)
  | pset (items : List PyVal)
  | pother (s : String)

/-- Python `str()` as applied to dict keys and fallback values.  Primitives
mirror Python's rendering; containers and floats get a schematic rendering
(the exact text is irrelevant to every claim). -/
def pyStr : PyVal → String
  | .pstr s => s
  | .pint n => toString n
  | .pfloat bits => "float:" ++ toString bits
  | .pbool b => if b then "True" else "False"
  | .pnone => "None"
  | .pdict _ => "dict"
  | .plist _ => "list"
  | .ptuple _ => "tuple"
  | .pset _ => "set"
  | .pother s => s

mutual

/-- `RollbackManager._make_json_safe`: primitives pass through, dicts recurse
with stringified keys, lists/tuples/sets become lists of normalized elements,
anything else becomes its `str()` text. -/
def make_json_safe : PyVal → PyVal
  | .pstr s => .pstr s
  | .pint n => .pint n
  | .pfloat bits => .pfloat bits
  | .pbool b => .pbool b
  | .pnone => .pnone
  | .pdict es => .pdict (jsonSafeEntries es)
  | .plist xs => .plist (jsonSafeItems xs)
  | .ptuple xs => .plist (jsonSafeItems xs)
  | .pset xs => .plist (jsonSafeItems xs)
  | .pother s => .pstr s

/-- Elementwise normalization of dict entries (`str(k)` keys, recursive values). -/
def jsonSafeEntries : List (PyVal × PyVal) → List (PyVal × PyVal)
  | [] => []
  | (k, v) :: rest => (.pstr (pyStr k), make_json_safe v) :: jsonSafeEntries rest

/-- Elementwise normalization of sequence items. -/
def jsonSafeItems : List PyVal → List PyVal
  | [] => []
  | v :: rest => make_json_safe v :: jsonSafeItems rest

end

/-- Python `str.lower()` for the ASCII identifiers this program lower-cases
(platform and framework names), written over the character list so that it
evaluates inside the kernel. -/
def pyLower (s : String) : String := String.mk (s.data.map Char.toLower)

/-- A persisted deployment checkpoint record (`create_checkpoint`'s `state`
dict).  `artifact_path` is the project-relative zip path, absent when
archiving failed. -/
structure DeploymentState where
  id : String
  platform : String
  timestamp : String
  git_commit : Option String
  artifact_path : Option String
  metadata : List (String × PyVal)

/-- One sidecar JSON file in the `.deployment` directory: file stem,
filesystem modification time, parsed content. -/
structure Sidecar where
  stem : String
  mtime : Nat
  state : DeploymentState

/-- One zip archive in `.deployment/artifacts`: file stem, archived tree,
and whether the zip is extractable (corrupt archives fail restore). -/
structure Artifact where
  stem : String
  content : List (String × String)
  valid : Bool

/-- The `.deployment` history directory. -/
structure DeployDir where
  sidecars : List Sidecar
  artifacts : List Artifact

/-- The filesystem as the rollback store sees it: optional history directory,
live project tree (path to content), and a clock for modification times. -/
structure FS where
  deployment : Option DeployDir
  project : List (String × String)
  clock : Nat

/-- Write-or-overwrite into a keyed list, keeping position on overwrite:
the behaviour of both dict assignment and file creation in a directory. -/
def upsert {α : Type} (key : α → String) (l : List α) (a : α) : List α :=
  match l with
  | [] => [a]
  | x :: rest => if key x == key a then a :: rest else x :: upsert key rest a

/-- Sidecars of the history directory, empty when the directory is absent. -/
def FS.sidecarList (fs : FS) : List Sidecar :=
  match fs.deployment with
  | none => []
  | some d => d.sidecars

/-- Apply a change to the history directory, creating it first when absent
(`mkdir(parents=True, exist_ok=True)`). -/
def modDir (fs : FS) (f : DeployDir → DeployDir) : FS :=
  { fs with deployment := some (f (fs.deployment.getD ⟨[], []⟩)) }

/-- `RollbackManager.EXCLUDED_DIRS`. -/
def EXCLUDED_DIRS : List String := [".deployment", ".git", ".venv", "__pycache__"]

/-- Whether the archive walk includes a project file: no path component below
the root may be an excluded directory name, and compiled bytecode suffixes
are skipped. -/
def isArchived (path : String) : Bool :=
  ((path.splitOn "/").dropLast.all fun part => !EXCLUDED_DIRS.contains part)
    && !path.endsWith ".pyc" && !path.endsWith ".pyo"

/-- Files captured by `_create_project_snapshot`'s walk over the project. -/
def snapshotContent (project : List (String × String)) : List (String × String) :=
  project.filter fun f => isArchived f.1

/-- Relative path recorded for an archive, `.deployment/artifacts/{id}.zip`. -/
def artifactRelPath (deployment_id : String) : String :=
  ".deployment/artifacts/" ++ deployment_id ++ ".zip"

/-- Environment of one checkpoint creation: the two timestamp renderings, the
best-effort git commit, and whether the two fallible filesystem steps (zip
archiving, sidecar JSON write) succeed.  An exception caught by the source
corresponds to the flag being `false`. -/
structure CreateEnv where
  ts : String
  iso : String
  git_commit : Option String
  archiveOk : Bool
  writeOk : Bool

/-- `RollbackManager._generate_deployment_id`. -/
def generate_deployment_id (platform : String) (ts : String) : String :=
  (pyLower platform) ++ "_" ++ ts

/-- `RollbackManager._create_project_snapshot`: on success, writes the zip of
the filtered project tree and returns its relative path; on failure returns
nothing and is a no-op (the exception is caught inside). -/
def create_project_snapshot (env : CreateEnv) (deployment_id : String) (fs : FS) :
    Option String × FS :=
  if env.archiveOk then
    let art : Artifact := ⟨deployment_id, snapshotContent fs.project, true⟩
    (some (artifactRelPath deployment_id),
     modDir fs fun d => { d with artifacts := upsert Artifact.stem d.artifacts art })
  else (none, fs)

/-- Newest-first comparison on sidecars, the sort key both
`clean_old_deployments` and `get_previous_deployment` use
(`key=mtime, reverse=True`). -/
def newerFirst (a b : Sidecar) : Prop := b.mtime ≤ a.mtime

instance : DecidableRel newerFirst := fun a b => Nat.decLe b.mtime a.mtime

/-- `RollbackManager.clean_old_deployments`: sort sidecars by modification
time, newest first; keep the first `keep_count`; delete the rest and every
archive whose stem is not among the kept stems.  No-op when the history
directory is absent. -/
def clean_old_deployments (keep_count : Nat) (dir : Option DeployDir) :
    Option DeployDir :=
  match dir with
  | none => none
  | some d =>
    let files := List.insertionSort newerFirst d.sidecars
    let kept := files.take keep_count
    let keepStems := kept.map Sidecar.stem
    some { sidecars := kept,
           artifacts := d.artifacts.filter fun a => keepStems.contains a.stem }

/-- `RollbackManager.save_deployment_state`: ensure the history directory,
attempt the project snapshot, record its path in the state when it succeeded,
then dump the JSON-normalized state as the sidecar.  Returns whether the
sidecar write succeeded, together with the (possibly artifact-annotated)
state and the resulting filesystem. -/
def save_deployment_state (env : CreateEnv) (deployment_id : String)
    (state : DeploymentState) (fs : FS) : Bool × DeploymentState × FS :=
  let fs1 := modDir fs id
  let snap := create_project_snapshot env deployment_id fs1
  let state1 : DeploymentState :=
    match snap.1 with
    | some p => { state with artifact_path := some p }
    | none => state
  if env.writeOk then
    let payload : DeploymentState :=
      { state1 with metadata := state1.metadata.map fun kv => (kv.1, make_json_safe kv.2) }
    let sc : Sidecar := ⟨deployment_id, snap.2.clock, payload⟩
    let fs2 := modDir snap.2 fun d => { d with sidecars := upsert Sidecar.stem d.sidecars sc }
    (true, state1, { fs2 with clock := snap.2.clock + 1 })
  else (false, state1, snap.2)

/-- `RollbackManager.create_checkpoint`, with the retention bound made an
explicit parameter (the source always passes `clean_old_deployments` its
default `keep_count = 5`; see `create_checkpoint`). -/
def create_checkpoint_k (keep_count : Nat) (env : CreateEnv) (platform : String)
    (metadata : List (String × PyVal)) (fs : FS) : Option DeploymentState × FS :=
  let deployment_id := generate_deployment_id platform env.ts
  let state : DeploymentState :=
    { id := deployment_id, platform := (pyLower platform), timestamp := env.iso,
      git_commit := env.git_commit, artifact_path := none, metadata := metadata }
  match save_deployment_state env deployment_id state fs with
  | (true, state1, fs1) =>
    (some state1, { fs1 with deployment := clean_old_deployments keep_count fs1.deployment })
  | (false, _, fs1) => (none, fs1)

/-- `RollbackManager.create_checkpoint` as the source runs it: retention
sweep with the default `keep_count = 5`. -/
def create_checkpoint (env : CreateEnv) (platform : String)
    (metadata : List (String × PyVal)) (fs : FS) : Option DeploymentState × FS :=
  create_checkpoint_k 5 env platform metadata fs

/-- `RollbackManager.get_previous_deployment`: the sidecar with the most
recent modification time, none when the directory is absent or empty. -/
def get_previous_deployment (fs : FS) : Option DeploymentState :=
  match fs.deployment with
  | none => none
  | some d =>
    match List.insertionSort newerFirst d.sidecars with
    | [] => none
    | f :: _ => some f.state

/-- Zip extraction over the live tree: files in the archive overwrite or are
added; files outside it are untouched. -/
def extractOver (project : List (String × String)) (content : List (String × String)) :
    List (String × String) :=
  content.foldl (fun acc f => upsert Prod.fst acc f) project

/-- Look up an archive file by the relative path a sidecar recorded. -/
def findArtifact (fs : FS) (rel : String) : Option Artifact :=
  match fs.deployment with
  | none => none
  | some d => d.artifacts.find? fun a => artifactRelPath a.stem == rel

/-- `RollbackManager._restore_snapshot`: fails cleanly when the state has no
`artifact_path`, the archive is missing, or extraction raises; otherwise
extracts the archive over the project tree. -/
def restore_snapshot (fs : FS) (state : DeploymentState) : Bool × FS :=
  match state.artifact_path with
  | none => (false, fs)
  | some rel =>
    match findArtifact fs rel with
    | none => (false, fs)
    | some art =>
      if art.valid then (true, { fs with project := extractOver fs.project art.content })
      else (false, fs)

/-- Observable events of a rollback, in chronological order. -/
inductive RbEvent where
  | restored
  | callback (ok : Bool)
  deriving DecidableEq

/-- `RollbackManager.rollback_to_previous`: look up the previous checkpoint
(fail with no side effect when absent), restore its snapshot, then run the
optional redeploy callback, whose boolean is propagated.  The event list
records what ran, in order. -/
def rollback_to_previous (cb : Option (DeploymentState → Bool)) (fs : FS) :
    Bool × FS × List RbEvent :=
  match get_previous_deployment fs with
  | none => (false, fs, [])
  | some prev =>
    match restore_snapshot fs prev with
    | (false, fs1) => (false, fs1, [])
    | (true, fs1) =>
      match cb with
      | none => (true, fs1, [RbEvent.restored])
      | some f =>
        if f prev then (true, fs1, [RbEvent.restored, RbEvent.callback true])
        else (false, fs1, [RbEvent.restored, RbEvent.callback false])

/-- `Deployer.AVAILABLE_DEPLOYERS` registry keys. -/
def AVAILABLE_DEPLOYERS : List String := ["render", "railway", "vercel", "heroku"]

/-- `Deployer.AVAILABLE_CHECKERS` registry keys. -/
def AVAILABLE_CHECKERS : List String := ["flask", "django", "fastapi"]

/-- Environment of the orchestrator: outcomes of the external capabilities
(system checker, per-framework checkers, config validator, per-platform
deployer actions, migrator), per §6 of the spec. -/
structure DeployEnv where
  systemReady : Bool
  systemResults : List CheckResult
  frameworkReady : String → Bool
  frameworkResults : String → List CheckResult
  configValid : Bool
  validateOk : String → Bool
  deployOk : String → Bool
  migrationOk : Bool

/-- `Deployer.check_deployment_readiness`: system gate always runs first; an
unrecognized framework short-circuits to `(false, system results)`; otherwise
the framework checker runs and both flag and result lists are combined. -/
def check_deployment_readiness (env : DeployEnv) (framework : String) :
    Bool × List CheckResult :=
  if AVAILABLE_CHECKERS.contains (pyLower framework) then
    (env.systemReady && env.frameworkReady (pyLower framework),
     env.systemResults ++ env.frameworkResults (pyLower framework))
  else
    (false, env.systemResults)

/-- Observable steps of a deploy run, in chronological order.  `migrate`
carries the migrator's outcome; `checkpoint` marks the
`create_checkpoint` invocation. -/
inductive DeployEvent where
  | systemGate
  | configCheck
  | platformValidate (p : String)
  | migrate (ok : Bool)
  | platformDeploy (p : String)
  | checkpoint (p : String)
  deriving DecidableEq

/-- `Deployer.validate_deployment`: config schema validation, then deployer
initialization (fails for an unregistered platform before any platform
action), then the platform's own validate. -/
def validate_deployment (env : DeployEnv) (platform : String) :
    Bool × List DeployEvent :=
  if !env.configValid then (false, [DeployEvent.configCheck])
  else if !AVAILABLE_DEPLOYERS.contains (pyLower platform) then
    (false, [DeployEvent.configCheck])
  else
    (env.validateOk (pyLower platform),
     [DeployEvent.configCheck, DeployEvent.platformValidate (pyLower platform)])

/-- `Deployer.deploy`: system gate (fatal), validation (fatal), optional
migration (outcome ignored for control flow), platform deploy (fatal),
checkpoint creation.  Returns the boolean outcome and the event trace. -/
def deploy (env : DeployEnv) (platform : String) (run_migrations : Bool) :
    Bool × List DeployEvent :=
  if !env.systemReady then (false, [DeployEvent.systemGate])
  else
    let v := validate_deployment env platform
    if !v.1 then (false, DeployEvent.systemGate :: v.2)
    else
      let ev1 := DeployEvent.systemGate :: v.2
      let ev2 := if run_migrations then ev1 ++ [DeployEvent.migrate env.migrationOk] else ev1
      if env.deployOk (pyLower platform) then
        (true, ev2 ++ [DeployEvent.platformDeploy (pyLower platform),
                       DeployEvent.checkpoint (pyLower platform)])
      else
        (false, ev2 ++ [DeployEvent.platformDeploy (pyLower platform)])

/-- `Deployer.deploy_to_multiple_platforms`: sequential fold over the given
platform list, writing each outcome into the result dict.  The second
component is the trace of `deploy` invocations in order. -/
def deploy_to_multiple_platforms (env : DeployEnv) (platforms : List String)
    (run_migrations : Bool) : List (String × Bool) × List String :=
  platforms.foldl
    (fun acc p =>
      (upsert Prod.fst acc.1 (p, (deploy env p run_migrations).1), acc.2 ++ [p]))
    ([], [])

/-- One checkpoint creation in a history: its environment, target platform,
and metadata (claim C2's "history of N checkpoint creations"). -/
structure CheckpointPlan where
  env : CreateEnv
  platform : String
  metadata : List (String × PyVal)

/-- Sidecar/archive file stem a plan's creation produces. -/
def planId (p : CheckpointPlan) : String := generate_deployment_id p.platform p.env.ts

/-- Run a history of checkpoint creations in order, with retention bound
`k` (`create_checkpoint` runs each step with `k = 5`). -/
def runCheckpoints (k : Nat) (plans : List CheckpointPlan) (fs : FS) : FS :=
  plans.foldl (fun s p => (create_checkpoint_k k p.env p.platform p.metadata s).2) fs

/-- Strictly-descending modification times, the shape sidecar listings keep
between retention sweeps. -/
def StrictDesc (l : List Sidecar) : Prop := l.Pairwise fun a b => b.mtime < a.mtime

/-- Concrete orchestrator environment in which every capability succeeds. -/
def envAllOk : DeployEnv :=
  { systemReady := true
    systemResults := [⟨"Dependency pinning", true, "3/3 dependencies pinned", "system", "medium"⟩]
    frameworkReady := fun _ => true
    frameworkResults := fun _ => [⟨"Requirements file", true, "requirements.txt found", "framework", "info"⟩]
    configValid := true
    validateOk := fun _ => true
    deployOk := fun _ => true
    migrationOk := true }

/-- Concrete environment whose system gate reports not-ready. -/
def envSystemDown : DeployEnv := { envAllOk with systemReady := false }

/-- Concrete environment whose migrator fails; everything else succeeds. -/
def envMigrationDown : DeployEnv := { envAllOk with migrationOk := false }

/-- Concrete checkpoint record pointing at an existing archive. -/
def stWitness : DeploymentState :=
  { id := "render_20250101000000", platform := "render"
    timestamp := "2025-01-01T00:00:00+00:00", git_commit := none
    artifact_path := some (artifactRelPath "render_20250101000000"), metadata := [] }

/-- Concrete filesystem holding one restorable checkpoint of `app.py`. -/
def fsWitness : FS :=
  { deployment := some
      { sidecars := [⟨"render_20250101000000", 0, stWitness⟩]
        artifacts := [⟨"render_20250101000000", [("app.py", "old")], true⟩] }
    project := [("app.py", "new")], clock := 1 }

/-- The filesystem `fsWitness` becomes once its snapshot is restored. -/
def fsWitnessRestored : FS := { fsWitness with project := [("app.py", "old")] }

/-- Concrete filesystem with no deployment history directory. -/
def fsNoHistory : FS := { deployment := none, project := [("app.py", "x")], clock := 0 }

/-- Concrete creation environment whose archiving step fails but whose
sidecar write succeeds. -/
def ceArchiveFail : CreateEnv :=
  { ts := "20250101000000", iso := "2025-01-01T00:00:00+00:00"
    git_commit := some "0a1b2c", archiveOk := false, writeOk := true }

/-- Concrete creation environment in which every step succeeds. -/
def ceOk1 : CreateEnv :=
  { ts := "20250101000001", iso := "2025-01-01T00:00:01+00:00"
    git_commit := none, archiveOk := true, writeOk := true }

/-- A second all-success creation environment, one second later. -/
def ceOk2 : CreateEnv :=
  { ts := "20250101000002", iso := "2025-01-01T00:00:02+00:00"
    git_commit := none, archiveOk := true, writeOk := true }

/-- Concrete two-creation history used to witness the retention bound. -/
def plansWitness : List CheckpointPlan :=
  [⟨ceOk1, "render", []⟩, ⟨ceOk2, "railway", []⟩]

/-! ## Shared lemmas -/

theorem jsonSafeItems_eq_map (xs : List PyVal) :
    jsonSafeItems xs = xs.map make_json_safe := by
  induction xs with
  | nil => rfl
  | cons v rest ih => simp [jsonSafeItems, ih]

theorem jsonSafeEntries_eq_map (es : List (PyVal × PyVal)) :
    jsonSafeEntries es = es.map fun kv => (.pstr (pyStr kv.1), make_json_safe kv.2) := by
  induction es with
  | nil => rfl
  | cons kv rest ih =>
    cases kv
    simp [jsonSafeEntries, ih]

theorem lookup_upsert {α : Type} (m : List (String × α)) (k p : String) (v : α) :
    (upsert Prod.fst m (k, v)).lookup p = if p = k then some v else m.lookup p := by
  induction m with
  | nil =>
    by_cases h : p = k
    · simp [upsert, List.lookup, h]
    · simp [upsert, List.lookup, h, beq_eq_false_iff_ne.mpr h]
  | cons kv rest ih =>
    by_cases hk : kv.1 = k
    · by_cases hp : p = k
      · simp [upsert, List.lookup, hk, hp]
      · simp [upsert, List.lookup, hk, hp, beq_eq_false_iff_ne.mpr hp]
    · have hk' : (kv.1 == k) = false := beq_eq_false_iff_ne.mpr hk
      by_cases hp : p = k
      · subst hp
        have hne : (p == kv.1) = false :=
          beq_eq_false_iff_ne.mpr fun hh => hk hh.symm
        simp [upsert, List.lookup, hk', hne, ih]
      · by_cases hpk : p = kv.1
        · simp [upsert, List.lookup, hk, hk', hp, hpk, ih]
        · simp [upsert, List.lookup, hk, hk', hp, beq_eq_false_iff_ne.mpr hpk, ih]

theorem upsert_fresh {α : Type} (key : α → String) (l : List α) (a : α)
    (h : ∀ x ∈ l, key x ≠ key a) :
    upsert key l a = l ++ [a] := by
  induction l with
  | nil => rfl
  | cons x rest ih =>
    have hx : (key x == key a) = false := beq_eq_false_iff_ne.mpr (h x (by simp))
    simp [upsert, hx, ih fun y hy => h y (by simp [hy])]

theorem insertionSort_append_max (l : List Sidecar) (a : Sidecar)
    (h : ∀ x ∈ l, x.mtime < a.mtime) :
    List.insertionSort newerFirst (l ++ [a]) = a :: List.insertionSort newerFirst l := by
  induction l with
  | nil => rfl
  | cons b t ih =>
    have hb : b.mtime < a.mtime := h b (by simp)
    have hba : ¬ newerFirst b a := not_le.mpr hb
    have ht := ih fun x hx => h x (by simp [hx])
    calc List.insertionSort newerFirst ((b :: t) ++ [a])
        = List.orderedInsert newerFirst b (List.insertionSort newerFirst (t ++ [a])) := rfl
      _ = List.orderedInsert newerFirst b
            (a :: List.insertionSort newerFirst t) := by rw [ht]
      _ = a :: List.orderedInsert newerFirst b (List.insertionSort newerFirst t) := by
            simp [List.orderedInsert, hba]
      _ = a :: List.insertionSort newerFirst (b :: t) := rfl

theorem insertionSort_of_strictDesc (l : List Sidecar) (h : StrictDesc l) :
    List.insertionSort newerFirst l = l :=
  List.Sorted.insertionSort_eq (List.Pairwise.imp (fun hlt => le_of_lt hlt) h)

theorem getD_sidecars (fs : FS) :
    (fs.deployment.getD ⟨[], []⟩).sidecars = fs.sidecarList := by
  cases h : fs.deployment <;> simp [FS.sidecarList, h]

theorem multi_trace (env : DeployEnv) (rm : Bool) (l : List String)
    (acc : List (String × Bool) × List String) :
    (l.foldl (fun acc p =>
      (upsert Prod.fst acc.1 (p, (deploy env p rm).1), acc.2 ++ [p])) acc).2 =
      acc.2 ++ l := by
  induction l generalizing acc with
  | nil => simp
  | cons q rest ih => simp [ih]

theorem multi_lookup (env : DeployEnv) (rm : Bool) (l : List String) :
    ∀ (acc : List (String × Bool) × List String) (p : String),
      ((l.foldl (fun acc q =>
          (upsert Prod.fst acc.1 (q, (deploy env q rm).1), acc.2 ++ [q])) acc).1.lookup p) =
        if p ∈ l then some (deploy env p rm).1 else acc.1.lookup p := by
  induction l with
  | nil => intro acc p; simp
  | cons q rest ih =>
    intro acc p
    rw [List.foldl_cons, ih]
    by_cases hp : p ∈ rest
    · simp [hp]
    · by_cases hq : p = q
      · subst hq
        simp [hp, lookup_upsert]
      · simp [hp, hq, lookup_upsert]

theorem create_checkpoint_k_eq_noarchive (k : Nat) (env : CreateEnv)
    (platform : String) (metadata : List (String × PyVal)) (fs : FS)
    (ha : env.archiveOk = false) (hw : env.writeOk = true) :
    create_checkpoint_k k env platform metadata fs =
      (some { id := generate_deployment_id platform env.ts,
              platform := pyLower platform, timestamp := env.iso,
              git_commit := env.git_commit, artifact_path := none,
              metadata := metadata },
       { deployment := clean_old_deployments k (some
           { sidecars := upsert Sidecar.stem (fs.deployment.getD ⟨[], []⟩).sidecars
               ⟨generate_deployment_id platform env.ts, fs.clock,
                { id := generate_deployment_id platform env.ts,
                  platform := pyLower platform, timestamp := env.iso,
                  git_commit := env.git_commit, artifact_path := none,
                  metadata := metadata.map fun kv => (kv.1, make_json_safe kv.2) }⟩,
             artifacts := (fs.deployment.getD ⟨[], []⟩).artifacts }),
         project := fs.project, clock := fs.clock + 1 }) := by
  simp [create_checkpoint_k, save_deployment_state, create_project_snapshot,
        ha, hw, modDir]

theorem create_checkpoint_k_eq_archive (k : Nat) (env : CreateEnv)
    (platform : String) (metadata : List (String × PyVal)) (fs : FS)
    (ha : env.archiveOk = true) (hw : env.writeOk = true) :
    create_checkpoint_k k env platform metadata fs =
      (some { id := generate_deployment_id platform env.ts,
              platform := pyLower platform, timestamp := env.iso,
              git_commit := env.git_commit,
              artifact_path := some (artifactRelPath (generate_deployment_id platform env.ts)),
              metadata := metadata },
       { deployment := clean_old_deployments k (some
           { sidecars := upsert Sidecar.stem (fs.deployment.getD ⟨[], []⟩).sidecars
               ⟨generate_deployment_id platform env.ts, fs.clock,
                { id := generate_deployment_id platform env.ts,
                  platform := pyLower platform, timestamp := env.iso,
                  git_commit := env.git_commit,
                  artifact_path := some (artifactRelPath (generate_deployment_id platform env.ts)),
                  metadata := metadata.map fun kv => (kv.1, make_json_safe kv.2) }⟩,
             artifacts := upsert Artifact.stem (fs.deployment.getD ⟨[], []⟩).artifacts
               ⟨generate_deployment_id platform env.ts, snapshotContent fs.project, true⟩ }),
         project := fs.project, clock := fs.clock + 1 }) := by
  simp [create_checkpoint_k, save_deployment_state, create_project_snapshot,
        ha, hw, modDir]

/-! ## Claim theorems: the orchestrator -/

/-- C1: for every platform and migration flag, when the system-readiness
checker reports not-ready, `deploy` returns `false` and checkpoint creation
is never invoked, regardless of framework or platform state. -/
theorem deploy_fatal_system_gate (env : DeployEnv) (platform : String)
    (run_migrations : Bool) (h : env.systemReady = false) :
    (deploy env platform run_migrations).1 = false ∧
    ∀ p, DeployEvent.checkpoint p ∉ (deploy env platform run_migrations).2 := by
  simp [deploy, h]

/-- Witness for C1 at a concrete not-ready environment. -/
theorem deploy_fatal_system_gate_witness :
    (deploy envSystemDown "render" true).1 = false ∧
    ∀ p, DeployEvent.checkpoint p ∉ (deploy envSystemDown "render" true).2 :=
  deploy_fatal_system_gate envSystemDown "render" true rfl

/-- C6: a failing migration capability is tolerated: with the gates, the
validation, and the platform deploy succeeding, `deploy` with migrations
requested still returns `true`, and the trace shows the failed migration ran
without aborting. -/
theorem deploy_tolerates_migration_failure (env : DeployEnv) (platform : String)
    (hm : env.migrationOk = false) (hs : env.systemReady = true)
    (hc : env.configValid = true)
    (hp : (pyLower platform) ∈ AVAILABLE_DEPLOYERS)
    (hv : env.validateOk (pyLower platform) = true)
    (hd : env.deployOk (pyLower platform) = true) :
    (deploy env platform true).1 = true ∧
    DeployEvent.migrate false ∈ (deploy env platform true).2 := by
  simp [deploy, validate_deployment, hs, hc, hp, hv, hd, hm]

/-- Witness for C6 at a concrete migration-failure environment. -/
theorem deploy_tolerates_migration_failure_witness :
    (deploy envMigrationDown "render" true).1 = true ∧
    DeployEvent.migrate false ∈ (deploy envMigrationDown "render" true).2 :=
  deploy_tolerates_migration_failure envMigrationDown "render" rfl rfl rfl
    (by decide) rfl rfl

/-- C7: readiness checking always runs the system gate first; an unrecognized
framework yields `(false, system results)` with no framework checks, and a
recognized one yields the conjunction of system and framework readiness with
the result lists concatenated (system results leading). -/
theorem check_readiness_spec (env : DeployEnv) (framework : String) :
    ((pyLower framework) ∉ AVAILABLE_CHECKERS →
      check_deployment_readiness env framework = (false, env.systemResults)) ∧
    ((pyLower framework) ∈ AVAILABLE_CHECKERS →
      check_deployment_readiness env framework =
        (env.systemReady && env.frameworkReady (pyLower framework),
         env.systemResults ++ env.frameworkResults (pyLower framework))) := by
  constructor <;> intro h <;> simp [check_deployment_readiness, h]

/-- Witness for C7: both the unrecognized and the recognized branch at
concrete inputs. -/
theorem check_readiness_spec_witness :
    check_deployment_readiness envAllOk "rails" = (false, envAllOk.systemResults) ∧
    check_deployment_readiness envAllOk "Flask" =
      (envAllOk.systemReady && envAllOk.frameworkReady ((pyLower "Flask")),
       envAllOk.systemResults ++ envAllOk.frameworkResults ((pyLower "Flask"))) :=
  ⟨(check_readiness_spec envAllOk "rails").1 (by decide),
   (check_readiness_spec envAllOk "Flask").2 (by decide)⟩

/-- C10: a platform whose lower-cased name is not registered makes `deploy`
return `false` with no checkpoint created and no platform action attempted
(deployer initialization yields nothing, so validation aborts first). -/
theorem deploy_unknown_platform (env : DeployEnv) (platform : String) (rm : Bool)
    (h : (pyLower platform) ∉ AVAILABLE_DEPLOYERS) :
    (deploy env platform rm).1 = false ∧
    (∀ p, DeployEvent.checkpoint p ∉ (deploy env platform rm).2) ∧
    (∀ p, DeployEvent.platformValidate p ∉ (deploy env platform rm).2) ∧
    (∀ p, DeployEvent.platformDeploy p ∉ (deploy env platform rm).2) := by
  by_cases hs : env.systemReady = true
  · by_cases hc : env.configValid = true <;>
      simp [deploy, validate_deployment, h, hs, hc]
  · have hs' : env.systemReady = false := by
      cases hb : env.systemReady
      · rfl
      · exact absurd hb hs
    simp [deploy, hs']

/-- Witness for C10 at the unregistered platform name `aws`. -/
theorem deploy_unknown_platform_witness :
    (deploy envAllOk "aws" true).1 = false ∧
    (∀ p, DeployEvent.checkpoint p ∉ (deploy envAllOk "aws" true).2) ∧
    (∀ p, DeployEvent.platformValidate p ∉ (deploy envAllOk "aws" true).2) ∧
    (∀ p, DeployEvent.platformDeploy p ∉ (deploy envAllOk "aws" true).2) :=
  deploy_unknown_platform envAllOk "aws" true (by decide)

/-- C9: multi-platform deployment invokes `deploy` once per entry of the given
list, in order, sequentially (the invocation trace equals the input list,
whatever the outcomes are, so no failure skips later platforms), and the
returned dict maps every listed platform to its own deploy outcome. -/
theorem deploy_multi_spec (env : DeployEnv) (platforms : List String) (rm : Bool) :
    (deploy_to_multiple_platforms env platforms rm).2 = platforms ∧
    ∀ p ∈ platforms,
      (deploy_to_multiple_platforms env platforms rm).1.lookup p =
        some (deploy env p rm).1 := by
  constructor
  · simpa [deploy_to_multiple_platforms] using multi_trace env rm platforms ([], [])
  · intro p hp
    have h := multi_lookup env rm platforms ([], []) p
    simpa [deploy_to_multiple_platforms, hp] using h

/-- Witness for C9: a two-platform list whose first deploy fails (unregistered
platform) while the second still runs and succeeds. -/
theorem deploy_multi_spec_witness :
    (deploy_to_multiple_platforms envAllOk ["bogus", "render"] true).2 =
      ["bogus", "render"] ∧
    (deploy_to_multiple_platforms envAllOk ["bogus", "render"] true).1.lookup "render" =
      some (deploy envAllOk "render" true).1 :=
  ⟨(deploy_multi_spec envAllOk ["bogus", "render"] true).1,
   (deploy_multi_spec envAllOk ["bogus", "render"] true).2 "render" (by simp)⟩

/-! ## Claim theorems: the snapshot store and rollback -/

/-- C8: the JSON-safety normalization leaves primitives (strings, integers,
floats, booleans, null) unchanged, recurses element-wise into mappings
(stringifying keys) and sequences, and converts every other value to its
string representation. -/
theorem make_json_safe_spec :
    (∀ s, make_json_safe (.pstr s) = .pstr s) ∧
    (∀ n, make_json_safe (.pint n) = .pint n) ∧
    (∀ b, make_json_safe (.pfloat b) = .pfloat b) ∧
    (∀ b, make_json_safe (.pbool b) = .pbool b) ∧
    make_json_safe .pnone = .pnone ∧
    (∀ es, make_json_safe (.pdict es) =
      .pdict (es.map fun kv => (.pstr (pyStr kv.1), make_json_safe kv.2))) ∧
    (∀ xs, make_json_safe (.plist xs) = .plist (xs.map make_json_safe)) ∧
    (∀ xs, make_json_safe (.ptuple xs) = .plist (xs.map make_json_safe)) ∧
    (∀ xs, make_json_safe (.pset xs) = .plist (xs.map make_json_safe)) ∧
    (∀ s, make_json_safe (.pother s) = .pstr s) := by
  refine ⟨fun s => rfl, fun n => rfl, fun b => rfl, fun b => rfl, rfl, fun es => ?_,
    fun xs => ?_, fun xs => ?_, fun xs => ?_, fun s => rfl⟩
  · simp [make_json_safe, jsonSafeEntries_eq_map]
  · simp [make_json_safe, jsonSafeItems_eq_map]
  · simp [make_json_safe, jsonSafeItems_eq_map]
  · simp [make_json_safe, jsonSafeItems_eq_map]

/-- C3: with no previous checkpoint (history directory absent, or present but
holding no sidecar records), rollback without a callback returns `false`,
leaves the filesystem untouched (no directory created, nothing restored), and
runs nothing (empty event trace); the model is a total function, matching the
source's catch-all handlers, so nothing surfaces to the caller. -/
theorem rollback_no_previous (fs : FS)
    (h : fs.deployment = none ∨ ∃ d, fs.deployment = some d ∧ d.sidecars = []) :
    rollback_to_previous none fs = (false, fs, []) := by
  rcases h with h | ⟨d, hd, hs⟩
  · simp [rollback_to_previous, get_previous_deployment, h]
  · simp [rollback_to_previous, get_previous_deployment, hd, hs, List.insertionSort]

/-- Witness for C3: a filesystem with no history directory. -/
theorem rollback_no_previous_witness :
    rollback_to_previous none fsNoHistory = (false, fsNoHistory, []) :=
  rollback_no_previous fsNoHistory (Or.inl rfl)

/-- C5: when the stored checkpoint's snapshot restore succeeds and the
supplied redeploy callback then returns `false`, the overall rollback returns
`false` while the restored filesystem is left in place (no compensating
un-restore), and the event trace shows the callback ran only after the
successful restore. -/
theorem rollback_callback_failure (fs fs1 : FS) (st : DeploymentState)
    (f : DeploymentState → Bool)
    (hprev : get_previous_deployment fs = some st)
    (hrestore : restore_snapshot fs st = (true, fs1))
    (hcb : f st = false) :
    rollback_to_previous (some f) fs =
      (false, fs1, [RbEvent.restored, RbEvent.callback false]) := by
  simp [rollback_to_previous, hprev, hrestore, hcb]

/-- Witness for C5: a concrete checkpoint with a restorable archive and an
always-failing callback; the project file keeps its restored content. -/
theorem rollback_callback_failure_witness :
    rollback_to_previous (some fun _ => false) fsWitness =
      (false, fsWitnessRestored, [RbEvent.restored, RbEvent.callback false]) :=
  rollback_callback_failure fsWitness fsWitnessRestored stWitness (fun _ => false)
    rfl rfl rfl

/-- C4: when archiving fails during checkpoint creation but the sidecar write
succeeds, the sidecar record is still written (and survives the retention
sweep) without an `artifact_path` field, and `create_checkpoint` still
returns the state record (itself without `artifact_path`); the creation
returns a failure (`none`) exactly when the sidecar write itself fails. -/
theorem create_checkpoint_archive_failure (env : CreateEnv) (platform : String)
    (metadata : List (String × PyVal)) (fs : FS) :
    ((create_checkpoint env platform metadata fs).1 = none ↔ env.writeOk = false) ∧
    (env.archiveOk = false → env.writeOk = true →
      (∀ sc ∈ fs.sidecarList, sc.stem ≠ generate_deployment_id platform env.ts) →
      (∀ sc ∈ fs.sidecarList, sc.mtime < fs.clock) →
      (create_checkpoint env platform metadata fs).1 =
        some { id := generate_deployment_id platform env.ts,
               platform := pyLower platform, timestamp := env.iso,
               git_commit := env.git_commit, artifact_path := none,
               metadata := metadata } ∧
      ∃ sc ∈ (create_checkpoint env platform metadata fs).2.sidecarList,
        sc.stem = generate_deployment_id platform env.ts ∧
        sc.state.artifact_path = none) := by
  constructor
  · cases hw : env.writeOk <;> cases ha : env.archiveOk <;>
      simp [create_checkpoint, create_checkpoint_k, save_deployment_state,
            create_project_snapshot, hw, ha]
  · intro ha hw hfresh hmt
    rw [create_checkpoint, create_checkpoint_k_eq_noarchive 5 env platform metadata fs ha hw]
    refine ⟨rfl, ?_⟩
    have hfresh' : ∀ x ∈ (fs.deployment.getD ⟨[], []⟩).sidecars,
        x.stem ≠ generate_deployment_id platform env.ts := by
      rw [getD_sidecars]; exact hfresh
    have hmt' : ∀ x ∈ (fs.deployment.getD ⟨[], []⟩).sidecars, x.mtime < fs.clock := by
      rw [getD_sidecars]; exact hmt
    rw [upsert_fresh _ _ _ hfresh']
    simp only [clean_old_deployments]
    rw [insertionSort_append_max _ _ hmt']
    refine ⟨⟨generate_deployment_id platform env.ts, fs.clock,
      { id := generate_deployment_id platform env.ts, platform := pyLower platform,
        timestamp := env.iso, git_commit := env.git_commit, artifact_path := none,
        metadata := metadata.map fun kv => (kv.1, make_json_safe kv.2) }⟩, ?_, rfl, rfl⟩
    simp [FS.sidecarList]

/-- Witness for C4: archive failure with a successful sidecar write on the
empty history. -/
theorem create_checkpoint_archive_failure_witness :
    ((create_checkpoint ceArchiveFail "Render" [] fsNoHistory).1 = none ↔
      ceArchiveFail.writeOk = false) ∧
    ((create_checkpoint ceArchiveFail "Render" [] fsNoHistory).1 =
      some { id := generate_deployment_id "Render" ceArchiveFail.ts,
             platform := pyLower "Render", timestamp := ceArchiveFail.iso,
             git_commit := ceArchiveFail.git_commit, artifact_path := none,
             metadata := [] } ∧
     ∃ sc ∈ (create_checkpoint ceArchiveFail "Render" [] fsNoHistory).2.sidecarList,
       sc.stem = generate_deployment_id "Render" ceArchiveFail.ts ∧
       sc.state.artifact_path = none) :=
  ⟨(create_checkpoint_archive_failure ceArchiveFail "Render" [] fsNoHistory).1,
   (create_checkpoint_archive_failure ceArchiveFail "Render" [] fsNoHistory).2
     rfl rfl (by simp [fsNoHistory, FS.sidecarList]) (by simp [fsNoHistory, FS.sidecarList])⟩

/-! ## Retention-bound machinery (claim C2) -/

theorem map_filter_key {α : Type} (key : α → String) (p : String → Bool) (l : List α) :
    (l.filter fun a => p (key a)).map key = (l.map key).filter p := by
  induction l with
  | nil => rfl
  | cons x rest ih =>
    by_cases hx : p (key x) = true <;> simp [hx, ih]

theorem take_append_take {α : Type} (u v : List α) (k : Nat) :
    (u ++ v.take k).take k = (u ++ v).take k := by
  rw [List.take_append_eq_append_take, List.take_append_eq_append_take, List.take_take,
    Nat.min_eq_left (Nat.sub_le k u.length)]

theorem filter_keep_core (u w : List String) (hnd : (u ++ w).Nodup) :
    (u ++ w).reverse.filter (fun s => u.contains s) = u.reverse := by
  rw [List.reverse_append, List.filter_append]
  have hdisj := (List.nodup_append.mp hnd).2.2
  have h1 : w.reverse.filter (fun s => u.contains s) = [] :=
    List.filter_eq_nil_iff.mpr fun a ha hc =>
      hdisj (List.elem_iff.mp hc) (List.mem_reverse.mp ha)
  have h2 : u.reverse.filter (fun s => u.contains s) = u.reverse :=
    List.filter_eq_self.mpr fun a ha => List.elem_iff.mpr (List.mem_reverse.mp ha)
  rw [h1, h2, List.nil_append]

theorem keep_filter (T : List String) (pid : String) (k : Nat)
    (hnd : (pid :: T).Nodup) :
    (T.reverse ++ [pid]).filter (fun s => ((pid :: T).take k).contains s) =
      ((pid :: T).take k).reverse := by
  obtain ⟨hpidT, hTnd⟩ := List.nodup_cons.mp hnd
  cases k with
  | zero => simp [List.contains, List.elem]
  | succ j =>
    rw [List.take_succ_cons, List.filter_append]
    have hpid : ([pid].filter fun s => (pid :: T.take j).contains s) = [pid] := by
      simp [List.contains, List.elem]
    have hTr : T.reverse.filter (fun s => (pid :: T.take j).contains s) =
        T.reverse.filter (fun s => (T.take j).contains s) := by
      refine List.filter_congr ?_
      intro a ha
      have haT : a ∈ T := List.mem_reverse.mp ha
      have hne : (a == pid) = false :=
        beq_eq_false_iff_ne.mpr fun h => hpidT (h ▸ haT)
      simp [List.contains, List.elem, hne]
    have hcore : T.reverse.filter (fun s => (T.take j).contains s) = (T.take j).reverse := by
      have hsplit : T.take j ++ T.drop j = T := List.take_append_drop j T
      have := filter_keep_core (T.take j) (T.drop j) (by rw [hsplit]; exact hTnd)
      rw [hsplit] at this
      exact this
    rw [hpid, hTr, hcore, List.reverse_cons]

theorem create_step_some (k : Nat) (env : CreateEnv) (platform : String)
    (metadata : List (String × PyVal)) (fs : FS) :
    ∃ d, (create_checkpoint_k k env platform metadata fs).2.deployment = some d := by
  cases hw : env.writeOk <;> cases ha : env.archiveOk <;>
    simp [create_checkpoint_k, save_deployment_state, create_project_snapshot,
          hw, ha, modDir, clean_old_deployments]

theorem runCheckpoints_preserves_some (k : Nat) (plans : List CheckpointPlan) :
    ∀ fs : FS, (∃ d, fs.deployment = some d) →
      ∃ d, (runCheckpoints k plans fs).deployment = some d := by
  induction plans with
  | nil => intro fs h; exact h
  | cons p ps ih =>
    intro fs _
    exact ih _ (create_step_some k p.env p.platform p.metadata fs)

theorem runCheckpoints_inv (k : Nat) (plans : List CheckpointPlan) :
    ∀ fs : FS,
      (∀ p ∈ plans, p.env.archiveOk = true ∧ p.env.writeOk = true) →
      (plans.map planId ++
        (fs.deployment.getD ⟨[], []⟩).sidecars.map Sidecar.stem).Nodup →
      StrictDesc (fs.deployment.getD ⟨[], []⟩).sidecars →
      (∀ sc ∈ (fs.deployment.getD ⟨[], []⟩).sidecars, sc.mtime < fs.clock) →
      ((fs.deployment.getD ⟨[], []⟩).artifacts.map Artifact.stem =
        ((fs.deployment.getD ⟨[], []⟩).sidecars.map Sidecar.stem).reverse) →
      (fs.deployment.getD ⟨[], []⟩).sidecars.length ≤ k →
      (((runCheckpoints k plans fs).deployment.getD ⟨[], []⟩).sidecars.map Sidecar.stem =
        ((plans.map planId).reverse ++
          (fs.deployment.getD ⟨[], []⟩).sidecars.map Sidecar.stem).take k) ∧
      (((runCheckpoints k plans fs).deployment.getD ⟨[], []⟩).artifacts.map Artifact.stem =
        (((runCheckpoints k plans fs).deployment.getD ⟨[], []⟩).sidecars.map
          Sidecar.stem).reverse) ∧
      ((runCheckpoints k plans fs).deployment.getD ⟨[], []⟩).sidecars.length ≤ k := by
  induction plans with
  | nil =>
    intro fs hok hnd hsd hmt hart hlen
    refine ⟨?_, hart, hlen⟩
    show (fs.deployment.getD ⟨[], []⟩).sidecars.map Sidecar.stem =
      (([] : List String).reverse ++
        (fs.deployment.getD ⟨[], []⟩).sidecars.map Sidecar.stem).take k
    rw [List.reverse_nil, List.nil_append,
      List.take_of_length_le (by rw [List.length_map]; exact hlen)]
  | cons p ps ih =>
    intro fs hok hnd hsd hmt hart hlen
    obtain ⟨ha, hw⟩ := hok p (List.mem_cons_self p ps)
    obtain ⟨sc, art, hscStem, hscMtime, hartStem, hstep2⟩ :
        ∃ (sc : Sidecar) (art : Artifact),
          sc.stem = generate_deployment_id p.platform p.env.ts ∧
          sc.mtime = fs.clock ∧
          art.stem = generate_deployment_id p.platform p.env.ts ∧
          (create_checkpoint_k k p.env p.platform p.metadata fs).2 =
            { deployment := clean_old_deployments k (some
                { sidecars := upsert Sidecar.stem
                    (fs.deployment.getD ⟨[], []⟩).sidecars sc,
                  artifacts := upsert Artifact.stem
                    (fs.deployment.getD ⟨[], []⟩).artifacts art }),
              project := fs.project, clock := fs.clock + 1 } := by
      refine ⟨⟨generate_deployment_id p.platform p.env.ts, fs.clock,
        { id := generate_deployment_id p.platform p.env.ts,
          platform := pyLower p.platform, timestamp := p.env.iso,
          git_commit := p.env.git_commit,
          artifact_path := some (artifactRelPath (generate_deployment_id p.platform p.env.ts)),
          metadata := p.metadata.map fun kv => (kv.1, make_json_safe kv.2) }⟩,
        ⟨generate_deployment_id p.platform p.env.ts, snapshotContent fs.project, true⟩,
        rfl, rfl, rfl, ?_⟩
      rw [create_checkpoint_k_eq_archive k p.env p.platform p.metadata fs ha hw]
    have hpidEq : planId p = sc.stem := hscStem.symm
    -- freshness of the new id against list heads
    have hndc : (planId p :: (ps.map planId ++
        (fs.deployment.getD ⟨[], []⟩).sidecars.map Sidecar.stem)).Nodup := by
      simpa using hnd
    have hpidNotMem := (List.nodup_cons.mp hndc).1
    have hndRest := (List.nodup_cons.mp hndc).2
    have hpidT : sc.stem ∉ (fs.deployment.getD ⟨[], []⟩).sidecars.map Sidecar.stem := by
      rw [← hpidEq]
      exact fun h => hpidNotMem (List.mem_append_right _ h)
    have hfreshS : ∀ x ∈ (fs.deployment.getD ⟨[], []⟩).sidecars, x.stem ≠ sc.stem :=
      fun x hx h => hpidT (h ▸ List.mem_map_of_mem Sidecar.stem hx)
    have hfreshA : ∀ a ∈ (fs.deployment.getD ⟨[], []⟩).artifacts, a.stem ≠ art.stem := by
      intro a haA h
      have : a.stem ∈ (fs.deployment.getD ⟨[], []⟩).artifacts.map Artifact.stem :=
        List.mem_map_of_mem Artifact.stem haA
      rw [hart, List.mem_reverse] at this
      exact hpidT (by rw [hscStem, ← hartStem, ← h]; exact this)
    have hS := upsert_fresh Sidecar.stem _ sc hfreshS
    have hA := upsert_fresh Artifact.stem _ art hfreshA
    have hmtS : ∀ x ∈ (fs.deployment.getD ⟨[], []⟩).sidecars, x.mtime < sc.mtime := by
      rw [hscMtime]; exact hmt
    have hsort : List.insertionSort newerFirst
        ((fs.deployment.getD ⟨[], []⟩).sidecars ++ [sc]) =
        sc :: (fs.deployment.getD ⟨[], []⟩).sidecars := by
      rw [insertionSort_append_max _ _ hmtS, insertionSort_of_strictDesc _ hsd]
    have hstep3 : (create_checkpoint_k k p.env p.platform p.metadata fs).2 =
        { deployment := some
            { sidecars := (sc :: (fs.deployment.getD ⟨[], []⟩).sidecars).take k,
              artifacts := ((fs.deployment.getD ⟨[], []⟩).artifacts ++ [art]).filter
                fun a => (((sc :: (fs.deployment.getD ⟨[], []⟩).sidecars).take k).map
                  Sidecar.stem).contains a.stem },
          project := fs.project, clock := fs.clock + 1 } := by
      rw [hstep2, hS, hA]
      simp only [clean_old_deployments]
      rw [hsort]
    have hrun : runCheckpoints k (p :: ps) fs =
        runCheckpoints k ps (create_checkpoint_k k p.env p.platform p.metadata fs).2 := rfl
    -- the new directory after the sweep
    have hkeptStems : ((sc :: (fs.deployment.getD ⟨[], []⟩).sidecars).take k).map
        Sidecar.stem =
        (sc.stem :: (fs.deployment.getD ⟨[], []⟩).sidecars.map Sidecar.stem).take k := by
      rw [List.map_take, List.map_cons]
    -- invariant hypotheses for the tail run
    have hndTake : (ps.map planId ++
        (sc.stem :: (fs.deployment.getD ⟨[], []⟩).sidecars.map Sidecar.stem).take k).Nodup := by
      have hbig : (ps.map planId ++
          (sc.stem :: (fs.deployment.getD ⟨[], []⟩).sidecars.map Sidecar.stem)).Nodup := by
        refine List.perm_middle.nodup_iff.mpr ?_
        rw [hpidEq] at hndc
        exact hndc
      exact hbig.sublist ((List.append_sublist_append_left (ps.map planId)).mpr
        (List.take_sublist k _))
    have hsdNew : StrictDesc ((sc :: (fs.deployment.getD ⟨[], []⟩).sidecars).take k) := by
      have hcons : StrictDesc (sc :: (fs.deployment.getD ⟨[], []⟩).sidecars) :=
        List.Pairwise.cons hmtS hsd
      exact hcons.sublist (List.take_sublist k _)
    have hmtNew : ∀ x ∈ (sc :: (fs.deployment.getD ⟨[], []⟩).sidecars).take k,
        x.mtime < fs.clock + 1 := by
      intro x hx
      rcases List.mem_cons.mp (List.take_subset k _ hx) with hx | hx
      · rw [hx, hscMtime]; exact Nat.lt_succ_self _
      · exact Nat.lt_succ_of_lt (hmt x hx)
    have hartNew : (((fs.deployment.getD ⟨[], []⟩).artifacts ++ [art]).filter
        fun a => (((sc :: (fs.deployment.getD ⟨[], []⟩).sidecars).take k).map
          Sidecar.stem).contains a.stem).map Artifact.stem =
        (((sc :: (fs.deployment.getD ⟨[], []⟩).sidecars).take k).map
          Sidecar.stem).reverse := by
      rw [map_filter_key, List.map_append, List.map_singleton, hart, hartStem, hscStem.symm,
        hkeptStems]
      refine keep_filter _ _ k ?_
      have : (sc.stem :: (fs.deployment.getD ⟨[], []⟩).sidecars.map Sidecar.stem).Nodup := by
        rw [← hpidEq] at hpidT ⊢
        exact List.nodup_cons.mpr ⟨hpidT, (List.nodup_append.mp hndRest).2.1⟩
      exact this
    have hlenNew : ((sc :: (fs.deployment.getD ⟨[], []⟩).sidecars).take k).length ≤ k := by
      rw [List.length_take]; exact Nat.min_le_left _ _
    have hokTail : ∀ q ∈ ps, q.env.archiveOk = true ∧ q.env.writeOk = true :=
      fun q hq => hok q (List.mem_cons_of_mem p hq)
    -- apply the induction hypothesis to the post-step filesystem
    rw [hrun, hstep3]
    have hmain := ih
      { deployment := some
          { sidecars := (sc :: (fs.deployment.getD ⟨[], []⟩).sidecars).take k,
            artifacts := ((fs.deployment.getD ⟨[], []⟩).artifacts ++ [art]).filter
              fun a => (((sc :: (fs.deployment.getD ⟨[], []⟩).sidecars).take k).map
                Sidecar.stem).contains a.stem },
        project := fs.project, clock := fs.clock + 1 }
      hokTail (by simpa [hkeptStems] using hndTake) hsdNew hmtNew
      (by simpa [hkeptStems] using hartNew) hlenNew
    simp only [Option.getD_some] at hmain
    refine ⟨?_, hmain.2.1, hmain.2.2⟩
    rw [hmain.1]
    rw [hkeptStems, take_append_take, List.map_cons, List.reverse_cons, hpidEq,
      List.append_assoc, List.singleton_append]

/-- C2: after a history of `N` checkpoint creations with retention bound
`k < N` (each creation runs the retention sweep, exactly as
`create_checkpoint` does with the source's default `keep_count = 5`), exactly
`k` sidecar records remain, they are the `k` most recently created
checkpoints (newest first), and exactly the `k` matching archives remain;
and the sweep is a no-op when the history directory is absent. -/
theorem retention_bound (k : Nat) (plans : List CheckpointPlan) (fs0 : FS)
    (hdir : fs0.deployment = none)
    (hok : ∀ p ∈ plans, p.env.archiveOk = true ∧ p.env.writeOk = true)
    (hids : (plans.map planId).Nodup)
    (hk : k < plans.length) :
    (∃ d, (runCheckpoints k plans fs0).deployment = some d ∧
       d.sidecars.length = k ∧
       d.sidecars.map Sidecar.stem = ((plans.map planId).reverse).take k ∧
       d.artifacts.map Artifact.stem = (((plans.map planId).reverse).take k).reverse) ∧
    clean_old_deployments k none = none := by
  refine ⟨?_, rfl⟩
  have hinv := runCheckpoints_inv k plans fs0 hok
    (by simpa [hdir] using hids) (by simp [hdir, StrictDesc]) (by simp [hdir])
    (by simp [hdir]) (by simp [hdir])
  obtain ⟨d, hd⟩ : ∃ d, (runCheckpoints k plans fs0).deployment = some d := by
    cases plans with
    | nil => simp at hk
    | cons p ps =>
      exact runCheckpoints_preserves_some k ps _
        (create_step_some k p.env p.platform p.metadata fs0)
  simp only [hd, hdir, Option.getD_some, Option.getD_none, List.map_nil,
    List.append_nil] at hinv
  refine ⟨d, hd, ?_, hinv.1, ?_⟩
  · calc d.sidecars.length
        = (d.sidecars.map Sidecar.stem).length := (List.length_map _ _).symm
      _ = (((plans.map planId).reverse).take k).length := by rw [hinv.1]
      _ = k := by
          rw [List.length_take, List.length_reverse, List.length_map]
          exact Nat.min_eq_left (le_of_lt hk)
  · rw [hinv.2.1, hinv.1]

/-- Witness for C2: two successful creations against an absent history
directory with retention bound 1. -/
theorem retention_bound_witness :
    (∃ d, (runCheckpoints 1 plansWitness fsNoHistory).deployment = some d ∧
       d.sidecars.length = 1 ∧
       d.sidecars.map Sidecar.stem = ((plansWitness.map planId).reverse).take 1 ∧
       d.artifacts.map Artifact.stem =
         (((plansWitness.map planId).reverse).take 1).reverse) ∧
    clean_old_deployments 1 none = none :=
  retention_bound 1 plansWitness fsNoHistory rfl (by decide) (by decide) (by decide)

end MPD
